import Mathlib

set_option autoImplicit false

/-! Shallow embedding of the VRChat Prometheus exporter (`exporter.py`):
the request throttle, the world/instance caches, the collectors and the
scrape scheduler, together with theorems settling the specification's
claims about them.  Python strings are modelled as `String` (or, where
substring reasoning is needed, as `List Char`); Python dicts — which are
insertion-ordered — are modelled as association lists; wall-clock time is
modelled as `ℚ` with `time.sleep d` advancing the clock by exactly `d`. -/

namespace VRChatExporter

/- ── Configuration constants (defaults from the environment block) ── -/

/-- Default of `MAX_WORLD_LOOKUPS` (new world IDs resolved per cycle). -/
def MAX_WORLD_LOOKUPS : Nat := 40

/-- Default of `OFFLINE_SCRAPE_CYCLES` (offline-friends cadence). -/
def OFFLINE_SCRAPE_CYCLES : Nat := 5

/-- Default of `REQUEST_DELAY` in seconds (1.5). -/
def REQUEST_DELAY : ℚ := 3 / 2

/- ── Python string `in` operator, on character lists ── -/

/-- Does `needle` occur contiguously at the head of `hay`? -/
def leadsWith : List Char → List Char → Bool
  | [], _ => true
  | _ :: _, [] => false
  | a :: as, b :: bs => a == b && leadsWith as bs

/-- Python `needle in hay` for strings: contiguous substring occurrence. -/
def hasSub (needle : List Char) : List Char → Bool
  | [] => leadsWith needle []
  | h :: t => leadsWith needle (h :: t) || hasSub needle t

/- ── `INSTANCE_TYPE_MAP` and `_parse_instance_type` ── -/

/-- The `INSTANCE_TYPE_MAP` dict, in its insertion order. -/
def INSTANCE_TYPE_MAP : List (List Char × List Char) :=
  [("public".toList, "public".toList),
   ("hidden".toList, "friends+".toList),
   ("friends".toList, "friends".toList),
   ("private".toList, "private".toList),
   ("group".toList, "group".toList)]

/-- The `for key, label in INSTANCE_TYPE_MAP.items()` loop of
`_parse_instance_type`: first key with `f"~{key}" in location` wins,
default `"unknown"`. -/
def typeScan : List (List Char × List Char) → List Char → List Char
  | [], _ => "unknown".toList
  | (key, label) :: rest, location =>
    if hasSub ('~' :: key) location then label else typeScan rest location

/-- The function `_parse_instance_type(location)`. -/
def parseInstanceType (location : List Char) : List Char :=
  if location = [] ∨ location = "private".toList ∨ location = "offline".toList ∨
      location = "traveling".toList then
    (if location = [] then "unknown".toList else location)
  else if hasSub "~".toList location = false then
    "public".toList
  else
    typeScan INSTANCE_TYPE_MAP location

/- ── `TRUST_RANK_MAP` and `_trust_rank_value` ── -/

/-- The `TRUST_RANK_MAP` dict, in its insertion order. -/
def TRUST_RANK_MAP : List (String × Int) :=
  [("system_legend", 5),
   ("system_trust_veteran", 4),
   ("system_trust_trusted", 3),
   ("system_trust_known", 2),
   ("system_trust_basic", 1),
   ("system_probable_troll", -1),
   ("system_troll", -2)]

/-- The `for tag in reversed(tags)` loop body of `_trust_rank_value`:
scan a list, return the first tag found in `TRUST_RANK_MAP`, else 0. -/
def trustScan : List String → Int
  | [] => 0
  | t :: rest =>
    match TRUST_RANK_MAP.lookup t with
    | some v => v
    | none => trustScan rest

/-- The function `_trust_rank_value(tags)`. -/
def trustRankValue (tags : List String) : Int := trustScan tags.reverse

/- ── Caches: records, Python dict semantics, resolve and refresh loops ── -/

/-- A `_world_cache` record (`{name, authorName, visits, favorites,
occupants, heat}`). -/
structure WorldRecord where
  name : String
  authorName : String
  visits : Int
  favorites : Int
  occupants : Int
  heat : Int
deriving DecidableEq

/-- An `_instance_cache` record (`{playerCount, region, type, world_name,
world_id, instance_id}`). -/
structure InstanceRecord where
  playerCount : Int
  region : String
  type : String
  world_name : String
  world_id : String
  instance_id : String
deriving DecidableEq

/-- Fields of a non-`None` `/instances/{wid}:{iid}` response that the
collectors read, each optional (read with `.get` fallbacks). -/
structure InstanceResponse where
  n_users : Option Int
  userCount : Option Int
  region : Option String
  type : Option String

/-- Keys of an insertion-ordered Python dict, in order. -/
def keysOf {κ α : Type} (c : List (κ × α)) : List κ := c.map Prod.fst

/-- Python dict assignment `d[k] = v` on an insertion-ordered dict: replace
the value in place when the key exists, append the pair otherwise. -/
def dictSet {κ α : Type} [DecidableEq κ] (k : κ) (v : α) (c : List (κ × α)) : List (κ × α) :=
  if k ∈ keysOf c then c.map (fun p => if p.1 = k then (k, v) else p) else c ++ [(k, v)]

/-- The degraded placeholder stored when a world fetch fails
(`{"name": wid, "authorName": "", "visits": 0, ...}`). -/
def worldPlaceholder (wid : String) : WorldRecord :=
  { name := wid, authorName := "", visits := 0, favorites := 0, occupants := 0, heat := 0 }

/-- The `for wid in list(unknown_world_ids)` loop of
`collect_friends_online`: resolve unknown world ids, counting every attempt
(success or placeholder) against `MAX_WORLD_LOOKUPS`.  `fetch wid = some w`
models a response that is truthy and has a `name` field. -/
def resolveWorlds (fetch : String → Option WorldRecord) :
    List String → List (String × WorldRecord) → Nat → List (String × WorldRecord)
  | [], cache, _ => cache
  | wid :: rest, cache, resolved =>
    if MAX_WORLD_LOOKUPS ≤ resolved then cache
    else
      match fetch wid with
      | some w => resolveWorlds fetch rest (dictSet wid w cache) (resolved + 1)
      | none => resolveWorlds fetch rest (dictSet wid (worldPlaceholder wid) cache) (resolved + 1)

/-- The refresh loop of `collect_world_metrics`: walk the cached worlds in
insertion order, re-fetching up to `MAX_WORLD_LOOKUPS` of them (attempts
count against the cap whether or not the fetch succeeds) and updating the
record fields in place. -/
def refreshWorlds (fetch : String → Option WorldRecord) :
    List (String × WorldRecord) → Nat → List (String × WorldRecord)
  | [], _ => []
  | (wid, r) :: rest, refreshed =>
    if MAX_WORLD_LOOKUPS ≤ refreshed then (wid, r) :: rest
    else
      match fetch wid with
      | some w => (wid, w) :: refreshWorlds fetch rest (refreshed + 1)
      | none => (wid, r) :: refreshWorlds fetch rest (refreshed + 1)

/-- The `for key, (wid, iid) in list(unknown_instances.items())[:20]` loop
of `collect_friends_online`: on a successful fetch a new instance record is
stored; on failure nothing at all is stored for that key. -/
def resolveInstances (fetch : String → String → Option InstanceResponse)
    (worldCache : List (String × WorldRecord)) :
    List (String × String × String) → List (String × InstanceRecord) →
    List (String × InstanceRecord)
  | [], cache => cache
  | (key, wid, iid) :: rest, cache =>
    match fetch wid iid with
    | some inst =>
      resolveInstances fetch worldCache rest (dictSet key
        { playerCount := inst.n_users.getD (inst.userCount.getD 0)
          region := inst.region.getD "us"
          type := inst.type.getD "public"
          world_name := ((worldCache.lookup wid).map WorldRecord.name).getD wid
          world_id := wid
          instance_id := iid } cache)
    | none => resolveInstances fetch worldCache rest cache

/-- The loop of `collect_instance_metrics`: every cached instance is
re-fetched (no cap) and, when the fetch succeeds, its `playerCount`,
`region` and `type` fields are updated in place. -/
def refreshInstances (fetch : String → String → Option InstanceResponse) :
    List (String × InstanceRecord) → List (String × InstanceRecord)
  | [] => []
  | (key, r) :: rest =>
    match fetch r.world_id r.instance_id with
    | some inst =>
      (key, { r with
          playerCount := inst.n_users.getD (inst.userCount.getD r.playerCount)
          region := inst.region.getD r.region
          type := inst.type.getD r.type }) :: refreshInstances fetch rest
    | none => (key, r) :: refreshInstances fetch rest

/- ── Friends, unknown-id extraction and the friend gauges ── -/

/-- A friend record as the collectors read it: every field already carries
the default its `.get` read site supplies (`status` → `"offline"`,
`last_platform` → `"unknown"`, `displayName` → `"unknown"`, avatar name →
`"unknown"`, `location` → `""`). -/
structure Friend where
  status : String
  last_platform : String
  displayName : String
  currentAvatarName : String
  location : String
deriving DecidableEq

/-- The `wid = loc.split(":")[0]` computation: everything before the first
colon. -/
def worldIdOf (loc : String) : String :=
  String.mk (loc.toList.takeWhile (fun c => c != ':'))

/-- The `iid = parts[1].split("~")[0]` computation: the part of the
location between the first and the second colon, cut at the first tilde
(only evaluated under the guard `":" in loc`). -/
def instIdOf (loc : String) : String :=
  String.mk ((((loc.toList.dropWhile (fun c => c != ':')).drop 1).takeWhile
      (fun c => c != ':')).takeWhile (fun c => c != '~'))

/-- The `unknown_world_ids` set of `collect_friends_online` (lines 313-319):
world ids referenced by a friend's non-sentinel location and absent from the
world cache.  Python iterates a `set`; the model fixes one duplicate-free
enumeration — every property proved about it is order-insensitive. -/
def unknownWorldIds (friends : List Friend) (cache : List (String × WorldRecord)) :
    List String :=
  ((friends.filterMap (fun f =>
      if f.location ≠ "" ∧ f.location ≠ "private" ∧ f.location ≠ "offline" ∧
          f.location ≠ "traveling" then
        some (worldIdOf f.location)
      else none)).filter (fun w => decide (w ∉ keysOf cache))).dedup

/-- The composite key `f"{wid}:{iid}"` of an instance referenced by a
friend's location. -/
def instKeyOf (loc : String) : String := worldIdOf loc ++ ":" ++ instIdOf loc

/-- The `unknown_instances` dict of `collect_friends_online` (lines
340-348): instance keys referenced by a friend's location (sentinels and
colon-free locations excluded) that are absent from the instance cache. -/
def unknownInstances (friends : List Friend) (cache : List (String × InstanceRecord)) :
    List (String × String × String) :=
  ((friends.filterMap (fun f =>
      if f.location ≠ "" ∧ hasSub ":".toList f.location.toList = true ∧
          f.location ≠ "private" ∧ f.location ≠ "offline" ∧ f.location ≠ "traveling" then
        some (instKeyOf f.location, worldIdOf f.location, instIdOf f.location)
      else none)).filter (fun t => decide (t.1 ∉ keysOf cache))).dedup

/-- Python `d[k] = d.get(k, 0) + 1` on an insertion-ordered dict. -/
def bumpCount (k : String) : List (String × Nat) → List (String × Nat)
  | [] => [(k, 1)]
  | (k2, c) :: rest => if k2 = k then (k2, c + 1) :: rest else (k2, c) :: bumpCount k rest

/-- The `status_counts` / `platform_counts` dicts, accumulated over the
friend list in order. -/
def countBy (attr : Friend → String) (friends : List Friend) : List (String × Nat) :=
  friends.foldl (fun acc f => bumpCount (attr f) acc) []

/-- A `for key, count in counts.items(): GAUGE.labels(key).set(count)`
loop: each label's entry is created or overwritten, all other entries of
the gauge are kept. -/
def setGauges (counts : List (String × Nat)) (g : List (String × Nat)) : List (String × Nat) :=
  counts.foldl (fun acc kv => dictSet kv.1 kv.2 acc) g

/-- The label set of `FRIEND_DETAIL`. -/
structure DetailLabels where
  display_name : String
  status : String
  platform : String
  world_name : String
  instance_type : String
  avatar_name : String
deriving DecidableEq

/-- The labels of the detail entry emitted for one friend (lines 363-390):
locations that are sentinel, empty or colon-free fall back to the raw
location (or `"unknown"`) for both world name and instance type. -/
def detailLabelsOf (worldCache : List (String × WorldRecord)) (f : Friend) : DetailLabels :=
  if f.location ≠ "" ∧ f.location ≠ "private" ∧ f.location ≠ "offline" ∧
      f.location ≠ "traveling" ∧ hasSub ":".toList f.location.toList = true then
    { display_name := f.displayName
      status := f.status
      platform := f.last_platform
      world_name := ((worldCache.lookup (worldIdOf f.location)).map
        WorldRecord.name).getD (worldIdOf f.location)
      instance_type := String.mk (parseInstanceType f.location.toList)
      avatar_name := f.currentAvatarName }
  else
    { display_name := f.displayName
      status := f.status
      platform := f.last_platform
      world_name := if f.location = "" then "unknown" else f.location
      instance_type := if f.location = "" then "unknown" else f.location
      avatar_name := f.currentAvatarName }

/-- The `world_counts` dict (friend occupancy per world id). -/
def worldCountsOf (friends : List Friend) : List (String × Nat) :=
  friends.foldl (fun acc f =>
    if f.location ≠ "" ∧ f.location ≠ "private" ∧ f.location ≠ "offline" ∧
        f.location ≠ "traveling" ∧ hasSub ":".toList f.location.toList = true then
      bumpCount (worldIdOf f.location) acc
    else acc) []

/-- The gauge families written by the second pass of
`collect_friends_online`. -/
structure FriendGauges where
  detail : List (DetailLabels × Nat)
  byStatus : List (String × Nat)
  byPlatform : List (String × Nat)
  byWorld : List ((String × String) × Nat)

/-- The gauge-publication behaviour of `collect_friends_online`: the detail
gauge (`FRIEND_DETAIL._metrics.clear()`, line 310) and the per-world gauge
(line 398) are cleared and rebuilt from the current friend list only, while
the per-status and per-platform gauges are only ever written through
`.labels(...).set(...)` and never cleared. -/
def collectFriendsGauges (worldCache : List (String × WorldRecord))
    (friends : List Friend) (g : FriendGauges) : FriendGauges :=
  { detail := friends.foldl (fun acc f => dictSet (detailLabelsOf worldCache f) 1 acc) []
    byStatus := setGauges (countBy Friend.status friends) g.byStatus
    byPlatform := setGauges (countBy Friend.last_platform friends) g.byPlatform
    byWorld := (worldCountsOf friends).foldl
      (fun acc kv => dictSet
        (((worldCache.lookup kv.1).map WorldRecord.name).getD kv.1, kv.1) kv.2 acc) [] }

/- ── Scheduler: collector order, cadence, failure containment ── -/

/-- The seven collectors, in the fixed order `scrape_all` uses. -/
inductive Collector
  | platform
  | currentUser
  | onlineFriends
  | worldRefresh
  | instanceRefresh
  | offlineFriends
  | favorites
deriving DecidableEq

/-- The collectors `scrape_all(client, cycle)` attempts, in order: four
unconditional ones, InstanceRefresh iff the instance cache is non-empty,
OfflineFriends iff `cycle % OFFLINE_SCRAPE_CYCLES == 0`, Favorites iff
`cycle % 3 == 0`. -/
def scheduledCollectors (cycle : Nat) (instanceCacheNonempty : Bool) : List Collector :=
  [Collector.platform, Collector.currentUser, Collector.onlineFriends, Collector.worldRefresh]
    ++ (if instanceCacheNonempty then [Collector.instanceRefresh] else [])
    ++ (if cycle % OFFLINE_SCRAPE_CYCLES = 0 then [Collector.offlineFriends] else [])
    ++ (if cycle % 3 = 0 then [Collector.favorites] else [])

/-- Run the scheduled collectors in order until one raises (`raises c`
says whether collector `c` raises this cycle); `scrape_all` has no
per-collector handler, so the first raiser ends the cycle body.  Returns
the collectors entered and whether an exception escaped `scrape_all`. -/
def runUntilRaise (raises : Collector → Bool) : List Collector → List Collector × Bool
  | [] => ([], false)
  | c :: rest =>
    if raises c then ([c], true)
    else
      let p := runUntilRaise raises rest
      (c :: p.1, p.2)

/-- Observable outcome of one authenticated `while True` iteration of
`main`. -/
structure TickOutcome where
  ran : List Collector
  cycleGaugesRecorded : Bool
  mainLoopErrorCounted : Bool
  slept : Bool
  cycleAfter : Nat
deriving DecidableEq

/-- One authenticated iteration of the main loop: `cycle` is incremented,
`scrape_all` runs inside `try`, so a raising collector skips the rest of
the cycle body (including the `SCRAPE_DURATION` / `LAST_SCRAPE_TS` /
`SCRAPE_CYCLE_NUM` updates at its end) and is counted under the
`main_loop` error label; the `time.sleep(SCRAPE_INTERVAL)` at the bottom
runs regardless. -/
def mainLoopTick (raises : Collector → Bool) (instanceCacheNonempty : Bool)
    (cycle : Nat) : TickOutcome :=
  let p := runUntilRaise raises (scheduledCollectors (cycle + 1) instanceCacheNonempty)
  { ran := p.1
    cycleGaugesRecorded := !p.2
    mainLoopErrorCounted := p.2
    slept := true
    cycleAfter := cycle + 1 }

/-- The cycle counter of `main` over a sequence of loop iterations:
`outcomes` lists, per iteration, whether the client was (or successfully
re-)authenticated; a failed re-auth sleeps and `continue`s without
touching the counter.  Returns the final counter value and the cycle
numbers passed to `scrape_all`. -/
def runLoop (outcomes : List Bool) : Nat × List Nat :=
  outcomes.foldl (fun st ok => if ok then (st.1 + 1, st.2 ++ [st.1 + 1]) else st) (0, [])

/- ── The request throttle clock ── -/

/-- Clock state of `VRChatClient`: `_last_request_time` and the current
wall-clock instant. -/
structure ClientClock where
  lastRequestTime : ℚ
  now : ℚ
deriving DecidableEq

/-- The `_throttle` method: sleep until `REQUEST_DELAY` has elapsed since
`_last_request_time`, then stamp `_last_request_time` with the current
instant.  The returned `now` is the moment `_throttle` returns — which is
the moment `_get` issues its HTTP request. -/
def throttle (s : ClientClock) : ClientClock :=
  let elapsed := s.now - s.lastRequestTime
  let afterSleep := if elapsed < REQUEST_DELAY then s.now + (REQUEST_DELAY - elapsed) else s.now
  { lastRequestTime := afterSleep, now := afterSleep }

/-- The timing skeleton of `_get`: throttle, issue the request at the
post-throttle instant, spend `d` seconds on the HTTP exchange.  Returns
the client clock after `_get`, the issue instant and the completion
instant; note `_last_request_time` keeps the *issue* instant. -/
def getTiming (s : ClientClock) (d : ℚ) : ClientClock × ℚ × ℚ :=
  let s2 := throttle s
  ({ lastRequestTime := s2.lastRequestTime, now := s2.now + d }, s2.now, s2.now + d)

/- ── Substring lemmas for the parser ── -/

lemma leadsWith_nil (l : List Char) : leadsWith [] l = true := by cases l <;> rfl

lemma hasSub_cons_of_not_mem {c : Char} (w : List Char) {hay : List Char} (h : c ∉ hay) :
    hasSub (c :: w) hay = false := by
  induction hay with
  | nil => rfl
  | cons a t ih =>
    rw [List.mem_cons, not_or] at h
    have hne : (c == a) = false := beq_eq_false_iff_ne.mpr h.1
    simp [hasSub, leadsWith, hne, ih h.2]

/-- When the only tilde of the haystack is the displayed one, searching for
`'~' :: w` reduces to matching `w` at the position right after that tilde. -/
lemma hasSub_append_tilde (w : List Char) {A B : List Char} (hA : '~' ∉ A) (hB : '~' ∉ B) :
    hasSub ('~' :: w) (A ++ '~' :: B) = leadsWith w B := by
  induction A with
  | nil =>
    simp only [List.nil_append, hasSub, leadsWith]
    rw [hasSub_cons_of_not_mem w hB]
    simp
  | cons a A ih =>
    rw [List.mem_cons, not_or] at hA
    have hne : ('~' == a) = false := beq_eq_false_iff_ne.mpr hA.1
    simp only [List.cons_append, hasSub, leadsWith, hne, Bool.false_and, Bool.false_or]
    exact ih hA.2

/-- A location of shape `wrld_X:Y~group(...)` (with no stray tilde in the
variable parts) parses to instance type `group`. -/
lemma parse_group_form (x y z : List Char) (hx : '~' ∉ x) (hy : '~' ∉ y) (hz : '~' ∉ z) :
    parseInstanceType
      ("wrld_".toList ++ x ++ ":".toList ++ y ++ "~group(".toList ++ z ++ ")".toList)
      = "group".toList := by
  have h1 : "~group(".toList = '~' :: "group(".toList := rfl
  have hloc : "wrld_".toList ++ x ++ ":".toList ++ y ++ "~group(".toList ++ z ++ ")".toList
      = ("wrld_".toList ++ x ++ ":".toList ++ y) ++
        '~' :: ("group(".toList ++ z ++ ")".toList) := by
    simp [List.append_assoc, h1]
  rw [hloc]
  have hA : '~' ∉ ("wrld_".toList ++ x ++ ":".toList ++ y) := by
    simp only [List.mem_append, not_or]
    exact ⟨⟨⟨by decide, hx⟩, by decide⟩, hy⟩
  have hB : '~' ∉ ("group(".toList ++ z ++ ")".toList) := by
    simp only [List.mem_append, not_or]
    exact ⟨⟨by decide, hz⟩, by decide⟩
  have hmem : '~' ∈ ("wrld_".toList ++ x ++ ":".toList ++ y) ++
      '~' :: ("group(".toList ++ z ++ ")".toList) :=
    List.mem_append_right _ (List.mem_cons_self _ _)
  have hne0 : ("wrld_".toList ++ x ++ ":".toList ++ y) ++
      '~' :: ("group(".toList ++ z ++ ")".toList) ≠ ([] : List Char) := by
    intro h; rw [h] at hmem; exact absurd hmem (by decide)
  have hne1 : ("wrld_".toList ++ x ++ ":".toList ++ y) ++
      '~' :: ("group(".toList ++ z ++ ")".toList) ≠ "private".toList := by
    intro h; rw [h] at hmem; exact absurd hmem (by decide)
  have hne2 : ("wrld_".toList ++ x ++ ":".toList ++ y) ++
      '~' :: ("group(".toList ++ z ++ ")".toList) ≠ "offline".toList := by
    intro h; rw [h] at hmem; exact absurd hmem (by decide)
  have hne3 : ("wrld_".toList ++ x ++ ":".toList ++ y) ++
      '~' :: ("group(".toList ++ z ++ ")".toList) ≠ "traveling".toList := by
    intro h; rw [h] at hmem; exact absurd hmem (by decide)
  have htil : hasSub "~".toList (("wrld_".toList ++ x ++ ":".toList ++ y) ++
      '~' :: ("group(".toList ++ z ++ ")".toList)) = true := by
    have := hasSub_append_tilde [] hA hB
    simpa [leadsWith_nil] using this
  have e1 : hasSub ('~' :: "public".toList) (("wrld_".toList ++ x ++ ":".toList ++ y) ++
      '~' :: ("group(".toList ++ z ++ ")".toList)) = false :=
    (hasSub_append_tilde _ hA hB).trans rfl
  have e2 : hasSub ('~' :: "hidden".toList) (("wrld_".toList ++ x ++ ":".toList ++ y) ++
      '~' :: ("group(".toList ++ z ++ ")".toList)) = false :=
    (hasSub_append_tilde _ hA hB).trans rfl
  have e3 : hasSub ('~' :: "friends".toList) (("wrld_".toList ++ x ++ ":".toList ++ y) ++
      '~' :: ("group(".toList ++ z ++ ")".toList)) = false :=
    (hasSub_append_tilde _ hA hB).trans rfl
  have e4 : hasSub ('~' :: "private".toList) (("wrld_".toList ++ x ++ ":".toList ++ y) ++
      '~' :: ("group(".toList ++ z ++ ")".toList)) = false :=
    (hasSub_append_tilde _ hA hB).trans rfl
  have e5 : hasSub ('~' :: "group".toList) (("wrld_".toList ++ x ++ ":".toList ++ y) ++
      '~' :: ("group(".toList ++ z ++ ")".toList)) = true :=
    (hasSub_append_tilde _ hA hB).trans rfl
  simp only [parseInstanceType]
  rw [if_neg (by simp only [not_or]; exact ⟨hne0, hne1, hne2, hne3⟩)]
  rw [if_neg (by rw [htil]; simp)]
  simp only [INSTANCE_TYPE_MAP, typeScan, e1, e2, e3, e4, e5]
  simp

/-- C4: the sentinels `private`, `offline`, `traveling` are returned
unchanged by `_parse_instance_type`, the empty location yields `unknown`,
locations of shape `wrld_X:Y~group(...)` yield `group`, and any non-empty
non-sentinel location without a `~` segment yields `public`. -/
theorem C4_instance_type_parsing :
    parseInstanceType "private".toList = "private".toList ∧
    parseInstanceType "offline".toList = "offline".toList ∧
    parseInstanceType "traveling".toList = "traveling".toList ∧
    parseInstanceType [] = "unknown".toList ∧
    (∀ x y z : List Char, '~' ∉ x → '~' ∉ y → '~' ∉ z →
      parseInstanceType
        ("wrld_".toList ++ x ++ ":".toList ++ y ++ "~group(".toList ++ z ++ ")".toList)
        = "group".toList) ∧
    (∀ loc : List Char, loc ≠ [] → loc ≠ "private".toList → loc ≠ "offline".toList →
      loc ≠ "traveling".toList → hasSub "~".toList loc = false →
      parseInstanceType loc = "public".toList) := by
  refine ⟨by decide, by decide, by decide, by decide, parse_group_form, ?_⟩
  intro loc h0 h1 h2 h3 h4
  simp only [parseInstanceType]
  rw [if_neg (by simp only [not_or]; exact ⟨h0, h1, h2, h3⟩), if_pos h4]

/-- Witness for C4 at concrete locations. -/
theorem C4_instance_type_parsing_witness :
    parseInstanceType "wrld_abc:12345~group(grp_x)".toList = "group".toList ∧
    parseInstanceType "wrld_abc:12345".toList = "public".toList := by
  constructor
  · have h := C4_instance_type_parsing.2.2.2.2.1 "abc".toList "12345".toList "grp_x".toList
      (by decide) (by decide) (by decide)
    have e : "wrld_".toList ++ "abc".toList ++ ":".toList ++ "12345".toList ++
        "~group(".toList ++ "grp_x".toList ++ ")".toList
        = "wrld_abc:12345~group(grp_x)".toList := by decide
    rw [e] at h
    exact h
  · exact C4_instance_type_parsing.2.2.2.2.2 "wrld_abc:12345".toList
      (by decide) (by decide) (by decide) (by decide) (by decide)

/- ── Trust-rank lemmas ── -/

/-- Tags that are not in `TRUST_RANK_MAP` are skipped by the scan. -/
lemma trustScan_append_of_none {l : List String}
    (h : ∀ u ∈ l, TRUST_RANK_MAP.lookup u = none) (rest : List String) :
    trustScan (l ++ rest) = trustScan rest := by
  induction l with
  | nil => rfl
  | cons a t ih =>
    have ha := h a (List.mem_cons_self a t)
    rw [List.cons_append]
    simp only [trustScan, ha]
    exact ih (fun u hu => h u (List.mem_cons_of_mem a hu))

/-- C8: `_trust_rank_value` scans the tag list in reverse and returns the
rank of the first tag found in `TRUST_RANK_MAP` (so the last matching tag of
the original list wins), defaulting to 0 when no tag matches; in particular
`["system_trust_basic", "system_trust_known"]` yields 2. -/
theorem C8_trust_rank_reverse_scan :
    trustRankValue ["system_trust_basic", "system_trust_known"] = 2 ∧
    (∀ tags : List String,
      (∀ t ∈ tags, TRUST_RANK_MAP.lookup t = none) → trustRankValue tags = 0) ∧
    (∀ (pre post : List String) (t : String) (v : Int),
      TRUST_RANK_MAP.lookup t = some v →
      (∀ u ∈ post, TRUST_RANK_MAP.lookup u = none) →
      trustRankValue (pre ++ t :: post) = v) := by
  refine ⟨by decide, ?_, ?_⟩
  · intro tags h
    have h2 : ∀ u ∈ tags.reverse, TRUST_RANK_MAP.lookup u = none :=
      fun u hu => h u (List.mem_reverse.mp hu)
    have h3 := trustScan_append_of_none h2 []
    simpa [trustRankValue] using h3
  · intro pre post t v hv hpost
    unfold trustRankValue
    rw [List.reverse_append, List.reverse_cons, List.append_assoc]
    rw [trustScan_append_of_none (fun u hu => hpost u (List.mem_reverse.mp hu))]
    simp [trustScan, hv]

/-- Witness for C8: an unmatched tag list yields 0, and a later matching tag
overrides earlier ones. -/
theorem C8_trust_rank_reverse_scan_witness :
    trustRankValue ["hello", "world"] = 0 ∧
    trustRankValue (["system_trust_basic"] ++ "system_troll" :: ["x"]) = -2 := by
  constructor
  · exact C8_trust_rank_reverse_scan.2.1 ["hello", "world"] (by decide)
  · exact C8_trust_rank_reverse_scan.2.2 ["system_trust_basic"] ["x"] "system_troll" (-2)
      (by decide) (by decide)

/- ── Dict and cache lemmas ── -/

@[simp] lemma keysOf_nil {κ α : Type} : keysOf ([] : List (κ × α)) = [] := rfl

@[simp] lemma keysOf_cons {κ α : Type} (p : κ × α) (l : List (κ × α)) :
    keysOf (p :: l) = p.1 :: keysOf l := rfl

lemma keysOf_append {κ α : Type} (c d : List (κ × α)) :
    keysOf (c ++ d) = keysOf c ++ keysOf d := List.map_append _ _ _

lemma length_keysOf {κ α : Type} (c : List (κ × α)) : (keysOf c).length = c.length :=
  List.length_map _ _

/-- Assigning to an absent key appends the pair at the end of the dict. -/
lemma dictSet_of_not_mem {κ α : Type} [DecidableEq κ] {k : κ} (v : α)
    {c : List (κ × α)} (h : k ∉ keysOf c) : dictSet k v c = c ++ [(k, v)] := if_neg h

/-- Dict assignment never removes a key and adds at most the assigned one. -/
lemma keysOf_dictSet {κ α : Type} [DecidableEq κ] (k : κ) (v : α) (c : List (κ × α)) :
    keysOf (dictSet k v c) = if k ∈ keysOf c then keysOf c else keysOf c ++ [k] := by
  unfold dictSet
  split
  · simp only [keysOf, List.map_map]
    apply List.map_congr_left
    intro p _
    by_cases h : p.1 = k <;> simp [h]
  · rw [keysOf_append]; rfl

lemma mem_keysOf_dictSet {κ α : Type} [DecidableEq κ] (k : κ) (v : α)
    {c : List (κ × α)} {k2 : κ} (h : k2 ∈ keysOf c) : k2 ∈ keysOf (dictSet k v c) := by
  rw [keysOf_dictSet]
  split
  · exact h
  · exact List.mem_append_left _ h

/-- `collect_world_metrics` never adds or removes cache keys. -/
lemma refreshWorlds_keys (fetch : String → Option WorldRecord) :
    ∀ (cache : List (String × WorldRecord)) (n : Nat),
      keysOf (refreshWorlds fetch cache n) = keysOf cache := by
  intro cache
  induction cache with
  | nil => intro n; rfl
  | cons p rest ih =>
    intro n
    obtain ⟨wid, r⟩ := p
    by_cases h : MAX_WORLD_LOOKUPS ≤ n
    · simp [refreshWorlds, h]
    · cases hf : fetch wid <;> simp [refreshWorlds, h, hf, ih]

/-- Refreshing against an unchanged upstream is idempotent. -/
lemma refreshWorlds_idem (fetch : String → Option WorldRecord) :
    ∀ (cache : List (String × WorldRecord)) (n : Nat),
      refreshWorlds fetch (refreshWorlds fetch cache n) n = refreshWorlds fetch cache n := by
  intro cache
  induction cache with
  | nil => intro n; rfl
  | cons p rest ih =>
    intro n
    obtain ⟨wid, r⟩ := p
    by_cases h : MAX_WORLD_LOOKUPS ≤ n
    · simp [refreshWorlds, h]
    · cases hf : fetch wid <;> simp [refreshWorlds, h, hf, ih]

/-- C7: running the WorldRefresh collector twice against an unchanged
upstream leaves every cached record exactly as after the first run, and the
refresh never adds or removes cache keys, so the cache size is unchanged. -/
theorem C7_world_refresh_idempotent (fetch : String → Option WorldRecord)
    (cache : List (String × WorldRecord)) :
    refreshWorlds fetch (refreshWorlds fetch cache 0) 0 = refreshWorlds fetch cache 0 ∧
    keysOf (refreshWorlds fetch cache 0) = keysOf cache ∧
    (refreshWorlds fetch cache 0).length = cache.length := by
  refine ⟨refreshWorlds_idem fetch cache 0, refreshWorlds_keys fetch cache 0, ?_⟩
  have h2 := congrArg List.length (refreshWorlds_keys fetch cache 0)
  simpa [length_keysOf] using h2

/- ── World-lookup cap lemmas (C3) ── -/

/-- Keys after the unknown-world resolution loop: the first
`MAX_WORLD_LOOKUPS - n` unknown ids are appended to the cache, the rest are
untouched. -/
lemma resolveWorlds_keys (fetch : String → Option WorldRecord) :
    ∀ (ids : List String) (cache : List (String × WorldRecord)) (n : Nat),
      ids.Nodup → (∀ i ∈ ids, i ∉ keysOf cache) →
      keysOf (resolveWorlds fetch ids cache n) =
        keysOf cache ++ ids.take (MAX_WORLD_LOOKUPS - n) := by
  intro ids
  induction ids with
  | nil => intro cache n _ _; simp [resolveWorlds]
  | cons wid rest ih =>
    intro cache n hnd habs
    rw [List.nodup_cons] at hnd
    by_cases h : MAX_WORLD_LOOKUPS ≤ n
    · have h0 : MAX_WORLD_LOOKUPS - n = 0 := Nat.sub_eq_zero_of_le h
      simp [resolveWorlds, h, h0]
    · have hwid : wid ∉ keysOf cache := habs wid (List.mem_cons_self _ _)
      have hstep : MAX_WORLD_LOOKUPS - n = (MAX_WORLD_LOOKUPS - (n + 1)) + 1 := by omega
      have habs2 : ∀ v : WorldRecord, ∀ i ∈ rest, i ∉ keysOf (dictSet wid v cache) := by
        intro v i hi
        rw [dictSet_of_not_mem v hwid, keysOf_append]
        simp only [List.mem_append, keysOf_cons, keysOf_nil, List.mem_singleton, not_or]
        exact ⟨habs i (List.mem_cons_of_mem _ hi), fun he => hnd.1 (he ▸ hi)⟩
      have hkeys : ∀ v : WorldRecord,
          keysOf (resolveWorlds fetch rest (dictSet wid v cache) (n + 1)) =
            keysOf cache ++ wid :: rest.take (MAX_WORLD_LOOKUPS - (n + 1)) := by
        intro v
        rw [ih (dictSet wid v cache) (n + 1) hnd.2 (habs2 v),
          dictSet_of_not_mem v hwid, keysOf_append]
        simp
      cases hf : fetch wid with
      | some w =>
        simp only [resolveWorlds, if_neg h, hf]
        rw [hkeys w, hstep, List.take_succ_cons]
      | none =>
        simp only [resolveWorlds, if_neg h, hf]
        rw [hkeys _, hstep, List.take_succ_cons]

/-- Filtering a duplicate-free list by membership in its own front segment
recovers exactly that segment; the complement recovers the tail segment. -/
lemma filter_split_of_nodup {α : Type} [DecidableEq α] {l t d : List α}
    (hnd : l.Nodup) (hl : l = t ++ d) :
    l.filter (fun a => decide (a ∈ t)) = t ∧ l.filter (fun a => decide (a ∉ t)) = d := by
  subst hl
  rw [List.nodup_append] at hnd
  obtain ⟨hnt, hnd2, hdisj⟩ := hnd
  constructor
  · rw [List.filter_append]
    have h1 : t.filter (fun a => decide (a ∈ t)) = t :=
      List.filter_eq_self.mpr (fun a ha => by simpa using ha)
    have h2 : d.filter (fun a => decide (a ∈ t)) = [] := by
      apply List.filter_eq_nil_iff.mpr
      intro a ha
      simp only [decide_eq_true_eq]
      exact fun hat => hdisj hat ha
    rw [h1, h2, List.append_nil]
  · rw [List.filter_append]
    have h1 : t.filter (fun a => decide (a ∉ t)) = [] := by
      apply List.filter_eq_nil_iff.mpr
      intro a ha
      simp only [decide_eq_true_eq, not_not]
      exact ha
    have h2 : d.filter (fun a => decide (a ∉ t)) = d := by
      apply List.filter_eq_self.mpr
      intro a ha
      simp only [decide_eq_true_eq]
      exact fun hat => hdisj hat ha
    rw [h1, h2, List.nil_append]

/-- C3: with 100 distinct world ids absent from the cache and the default
cap of 40, one online-friends resolution pass creates exactly 40 new cache
entries (successes and degraded placeholders both count against the cap),
leaves the other 60 ids absent, and a later pass over the leftover ids
resolves 40 more of them. -/
theorem C3_world_lookup_cap (fetch : String → Option WorldRecord)
    (cache : List (String × WorldRecord)) (ids : List String)
    (hnd : ids.Nodup) (hlen : ids.length = 100)
    (habs : ∀ i ∈ ids, i ∉ keysOf cache) :
    (resolveWorlds fetch ids cache 0).length = cache.length + 40 ∧
    (ids.filter (fun i => decide (i ∈ keysOf (resolveWorlds fetch ids cache 0)))).length = 40 ∧
    (ids.filter (fun i => decide (i ∉ keysOf (resolveWorlds fetch ids cache 0)))).length = 60 ∧
    (resolveWorlds fetch
        (ids.filter (fun i => decide (i ∉ keysOf (resolveWorlds fetch ids cache 0))))
        (resolveWorlds fetch ids cache 0) 0).length = cache.length + 80 := by
  have hk : keysOf (resolveWorlds fetch ids cache 0) = keysOf cache ++ ids.take 40 := by
    rw [resolveWorlds_keys fetch ids cache 0 hnd habs]
    rfl
  have htlen : (ids.take 40).length = 40 := by
    rw [List.length_take, hlen]
    decide
  have hlen2 : (resolveWorlds fetch ids cache 0).length = cache.length + 40 := by
    have h2 := congrArg List.length hk
    rw [length_keysOf, List.length_append, length_keysOf, htlen] at h2
    exact h2
  have hiff : ∀ i ∈ ids,
      (decide (i ∈ keysOf (resolveWorlds fetch ids cache 0))) = (decide (i ∈ ids.take 40)) := by
    intro i hi
    apply decide_eq_decide.mpr
    rw [hk, List.mem_append]
    constructor
    · rintro (hc | ht)
      · exact absurd hc (habs i hi)
      · exact ht
    · exact Or.inr
  have hiff2 : ∀ i ∈ ids,
      (decide (i ∉ keysOf (resolveWorlds fetch ids cache 0))) = (decide (i ∉ ids.take 40)) := by
    intro i hi
    apply decide_eq_decide.mpr
    have := decide_eq_decide.mp (hiff i hi)
    exact not_congr this
  have hsplit := filter_split_of_nodup hnd (List.take_append_drop 40 ids).symm
  have hf1 : ids.filter (fun i => decide (i ∈ keysOf (resolveWorlds fetch ids cache 0)))
      = ids.take 40 := by
    rw [List.filter_congr hiff]
    exact hsplit.1
  have hf2 : ids.filter (fun i => decide (i ∉ keysOf (resolveWorlds fetch ids cache 0)))
      = ids.drop 40 := by
    rw [List.filter_congr hiff2]
    exact hsplit.2
  have hdlen : (ids.drop 40).length = 60 := by
    rw [List.length_drop, hlen]
  refine ⟨hlen2, by rw [hf1, htlen], by rw [hf2, hdlen], ?_⟩
  have hnd3 : (ids.filter (fun i => decide (i ∉ keysOf (resolveWorlds fetch ids cache 0)))).Nodup :=
    List.Nodup.filter _ hnd
  have habs3 : ∀ i ∈ ids.filter (fun i => decide (i ∉ keysOf (resolveWorlds fetch ids cache 0))),
      i ∉ keysOf (resolveWorlds fetch ids cache 0) := by
    intro i hi
    simpa using (List.mem_filter.mp hi).2
  have hk3 := resolveWorlds_keys fetch _ (resolveWorlds fetch ids cache 0) 0 hnd3 habs3
  have h3 := congrArg List.length hk3
  rw [length_keysOf, List.length_append, length_keysOf, hlen2] at h3
  rw [hf2]
  rw [hf2, List.length_take, hdlen] at h3
  have hm : MAX_WORLD_LOOKUPS - 0 = 40 := rfl
  rw [hm] at h3
  omega

/-- One hundred distinct world ids for the C3 witness. -/
def c3ids : List String := ["w00", "w01", "w02", "w03", "w04", "w05", "w06", "w07", "w08", "w09", "w10", "w11", "w12", "w13", "w14", "w15", "w16", "w17", "w18", "w19", "w20", "w21", "w22", "w23", "w24", "w25", "w26", "w27", "w28", "w29", "w30", "w31", "w32", "w33", "w34", "w35", "w36", "w37", "w38", "w39", "w40", "w41", "w42", "w43", "w44", "w45", "w46", "w47", "w48", "w49", "w50", "w51", "w52", "w53", "w54", "w55", "w56", "w57", "w58", "w59", "w60", "w61", "w62", "w63", "w64", "w65", "w66", "w67", "w68", "w69", "w70", "w71", "w72", "w73", "w74", "w75", "w76", "w77", "w78", "w79", "w80", "w81", "w82", "w83", "w84", "w85", "w86", "w87", "w88", "w89", "w90", "w91", "w92", "w93", "w94", "w95", "w96", "w97", "w98", "w99"]

/-- Witness for C3: a run over 100 fresh ids with an always-failing fetch
creates exactly 40 entries, and the leftover 60 resolve 40 more later. -/
theorem C3_world_lookup_cap_witness :
    (resolveWorlds (fun _ => (none : Option WorldRecord)) c3ids [] 0).length =
        ([] : List (String × WorldRecord)).length + 40 ∧
    (c3ids.filter (fun i => decide (i ∈
        keysOf (resolveWorlds (fun _ => (none : Option WorldRecord)) c3ids [] 0)))).length = 40 ∧
    (c3ids.filter (fun i => decide (i ∉
        keysOf (resolveWorlds (fun _ => (none : Option WorldRecord)) c3ids [] 0)))).length = 60 ∧
    (resolveWorlds (fun _ => (none : Option WorldRecord))
        (c3ids.filter (fun i => decide (i ∉
          keysOf (resolveWorlds (fun _ => (none : Option WorldRecord)) c3ids [] 0))))
        (resolveWorlds (fun _ => (none : Option WorldRecord)) c3ids [] 0) 0).length =
        ([] : List (String × WorldRecord)).length + 80 :=
  C3_world_lookup_cap (fun _ => (none : Option WorldRecord)) [] c3ids
    (by decide) (by decide) (by decide)

/- ── Scheduler lemmas and claims C1, C6 ── -/

/-- `scrape_all` enters exactly the scheduled collectors up to and
including the first raiser, and an exception escapes iff some entered
collector raises. -/
lemma runUntilRaise_spec (raises : Collector → Bool) :
    ∀ l : List Collector,
      runUntilRaise raises l =
        (l.takeWhile (fun c => !raises c) ++ (l.dropWhile (fun c => !raises c)).take 1,
          l.any raises) := by
  intro l
  induction l with
  | nil => rfl
  | cons c rest ih =>
    by_cases h : raises c = true
    · simp [runUntilRaise, h, List.takeWhile_cons, List.dropWhile_cons]
    · simp only [Bool.not_eq_true] at h
      simp [runUntilRaise, h, List.takeWhile_cons, List.dropWhile_cons, ih]

/-- C1 (amended): on every authenticated tick the scheduler always reaches
its sleep and advances the cycle counter; an exception raised by a
collector is counted once under the generic `main_loop` label (and exactly
then are the cycle-duration/last-success/cycle-number gauges skipped), and
the collectors that run are precisely those up to and including the first
raiser — a raising collector stops the remainder of that cycle. -/
theorem C1_failure_containment (raises : Collector → Bool) (instNonempty : Bool) (cycle : Nat) :
    (mainLoopTick raises instNonempty cycle).slept = true ∧
    (mainLoopTick raises instNonempty cycle).cycleAfter = cycle + 1 ∧
    (mainLoopTick raises instNonempty cycle).mainLoopErrorCounted
      = (scheduledCollectors (cycle + 1) instNonempty).any raises ∧
    (mainLoopTick raises instNonempty cycle).cycleGaugesRecorded
      = !(scheduledCollectors (cycle + 1) instNonempty).any raises ∧
    (mainLoopTick raises instNonempty cycle).ran
      = (scheduledCollectors (cycle + 1) instNonempty).takeWhile (fun c => !raises c)
        ++ ((scheduledCollectors (cycle + 1) instNonempty).dropWhile (fun c => !raises c)).take 1 := by
  simp [mainLoopTick, runUntilRaise_spec]

/-- Counterexample to C1 as stated: when the Platform collector raises on
cycle 1, the CurrentUser collector — scheduled for that same cycle — does
not run, and the cycle gauges are not recorded; the error is counted at
the main loop, not at the collector boundary. -/
theorem C1_isolation_counterexample :
    Collector.currentUser ∈ scheduledCollectors 1 false ∧
    (mainLoopTick (fun c => c == Collector.platform) false 0).ran = [Collector.platform] ∧
    Collector.currentUser ∉ (mainLoopTick (fun c => c == Collector.platform) false 0).ran ∧
    (mainLoopTick (fun c => c == Collector.platform) false 0).cycleGaugesRecorded = false ∧
    (mainLoopTick (fun c => c == Collector.platform) false 0).mainLoopErrorCounted = true ∧
    (mainLoopTick (fun c => c == Collector.platform) false 0).slept = true := by
  decide

lemma offline_mem_sched (cycle : Nat) (b : Bool) :
    (Collector.offlineFriends ∈ scheduledCollectors cycle b) ↔
      cycle % OFFLINE_SCRAPE_CYCLES = 0 := by
  by_cases h5 : cycle % OFFLINE_SCRAPE_CYCLES = 0 <;> cases b <;>
    by_cases h3 : cycle % 3 = 0 <;> simp [scheduledCollectors, h5, h3]

lemma favorites_mem_sched (cycle : Nat) (b : Bool) :
    (Collector.favorites ∈ scheduledCollectors cycle b) ↔ cycle % 3 = 0 := by
  by_cases h5 : cycle % OFFLINE_SCRAPE_CYCLES = 0 <;> cases b <;>
    by_cases h3 : cycle % 3 = 0 <;> simp [scheduledCollectors, h5, h3]

lemma runLoop_foldl (outcomes : List Bool) :
    ∀ (c : Nat) (e : List Nat),
      outcomes.foldl (fun st ok => if ok then (st.1 + 1, st.2 ++ [st.1 + 1]) else st) (c, e)
        = (c + outcomes.count true, e ++ List.range' (c + 1) (outcomes.count true)) := by
  induction outcomes with
  | nil => intro c e; simp
  | cons ok rest ih =>
    intro c e
    cases ok
    · simpa [List.count_cons] using ih c e
    · have h := ih (c + 1) (e ++ [c + 1])
      have hc : List.count true (true :: rest) = List.count true rest + 1 := by
        simp [List.count_cons]
      have hr : List.range' (c + 1) (List.count true rest + 1)
          = (c + 1) :: List.range' (c + 1 + 1) (List.count true rest) :=
        List.range'_succ _ _ _
      simp only [List.foldl_cons, if_pos]
      rw [h, hc, hr]
      simp only [Prod.mk.injEq]
      constructor
      · omega
      · simp [List.append_assoc]

/-- C6: with the default cadences, a cycle schedules OfflineFriends iff its
number is a positive multiple of 5 and Favorites iff it is a positive
multiple of 3; and the main loop numbers the cycles it hands to
`scrape_all` exactly 1, 2, 3, ... — one per authenticated tick, with
failed re-auth ticks not consuming a number. -/
theorem C6_cadence :
    (∀ (cycle : Nat) (b : Bool), 1 ≤ cycle →
      ((Collector.offlineFriends ∈ scheduledCollectors cycle b) ↔
        cycle % OFFLINE_SCRAPE_CYCLES = 0) ∧
      ((Collector.offlineFriends ∈ scheduledCollectors cycle b) ↔
        ∃ k, 1 ≤ k ∧ cycle = 5 * k) ∧
      ((Collector.favorites ∈ scheduledCollectors cycle b) ↔ cycle % 3 = 0) ∧
      ((Collector.favorites ∈ scheduledCollectors cycle b) ↔ ∃ k, 1 ≤ k ∧ cycle = 3 * k)) ∧
    (∀ outcomes : List Bool,
      (runLoop outcomes).2 = List.range' 1 (outcomes.count true) ∧
      (runLoop outcomes).1 = outcomes.count true) := by
  constructor
  · intro cycle b h1
    have h5 : (cycle % OFFLINE_SCRAPE_CYCLES = 0) ↔ ∃ k, 1 ≤ k ∧ cycle = 5 * k := by
      simp only [OFFLINE_SCRAPE_CYCLES]
      constructor
      · intro h
        exact ⟨cycle / 5, by omega, by omega⟩
      · rintro ⟨k, hk, rfl⟩
        omega
    have h3 : (cycle % 3 = 0) ↔ ∃ k, 1 ≤ k ∧ cycle = 3 * k := by
      constructor
      · intro h
        exact ⟨cycle / 3, by omega, by omega⟩
      · rintro ⟨k, hk, rfl⟩
        omega
    exact ⟨offline_mem_sched cycle b, (offline_mem_sched cycle b).trans h5,
      favorites_mem_sched cycle b, (favorites_mem_sched cycle b).trans h3⟩
  · intro outcomes
    have h := runLoop_foldl outcomes 0 []
    unfold runLoop
    rw [h]
    simp

/-- Witness for C6 at cycle 10: OfflineFriends and Favorites are both
scheduled iff their modulus conditions hold there. -/
theorem C6_cadence_witness :
    ((Collector.offlineFriends ∈ scheduledCollectors 10 false) ↔
      10 % OFFLINE_SCRAPE_CYCLES = 0) ∧
    ((Collector.favorites ∈ scheduledCollectors 10 false) ↔ 10 % 3 = 0) :=
  ⟨(C6_cadence.1 10 false (by norm_num)).1, (C6_cadence.1 10 false (by norm_num)).2.2.1⟩

/- ── Throttle timing: claim C5 ── -/

/-- C5 (amended): the throttle measures elapsed time from the instant the
previous request was *issued* (`_last_request_time` is stamped at the end
of `_throttle`, before the HTTP exchange), sleeps exactly the remainder of
`REQUEST_DELAY` relative to that instant — so consecutive *issue* instants
are at least `REQUEST_DELAY` apart — and stamps `_last_request_time` with
the new issue instant.  Here `i1` is the previous issue instant and `t` is
the clock when `_get` is next entered. -/
theorem C5_throttle_issue_spacing (i1 t d2 : ℚ) (ht : i1 ≤ t) :
    REQUEST_DELAY ≤ (getTiming ⟨i1, t⟩ d2).2.1 - i1 ∧
    (t - i1 < REQUEST_DELAY → (getTiming ⟨i1, t⟩ d2).2.1 = i1 + REQUEST_DELAY) ∧
    (getTiming ⟨i1, t⟩ d2).1.lastRequestTime = (getTiming ⟨i1, t⟩ d2).2.1 := by
  clear ht
  simp only [getTiming, throttle]
  by_cases h : t - i1 < REQUEST_DELAY
  · rw [if_pos h]
    refine ⟨by ring_nf; linarith, fun _ => by ring, trivial⟩
  · rw [if_neg h]
    exact ⟨by linarith [not_lt.mp h], fun hc => absurd hc h, trivial⟩

/-- Witness for C5 at `i1 = 1`, `t = 2`: the second request is issued at
exactly `1 + REQUEST_DELAY`. -/
theorem C5_throttle_issue_spacing_witness :
    (getTiming ⟨1, 2⟩ 0).2.1 = 1 + REQUEST_DELAY :=
  (C5_throttle_issue_spacing 1 2 0 (by norm_num)).2.1 (by norm_num [REQUEST_DELAY])

/-- Counterexample to C5 as stated: a request issued at 10 that takes 1
second completes at 11; the next `_get`, entered at 11, sleeps only 0.5
seconds and issues at 11.5 — half a second after the previous request
*completed*, i.e. strictly closer than `REQUEST_DELAY` measured from the
previous request's completion. -/
theorem C5_completion_gap_counterexample :
    (getTiming (getTiming ⟨0, 10⟩ 1).1 0).2.1 - (getTiming ⟨0, 10⟩ 1).2.2 = 1 / 2 ∧
    (1 / 2 : ℚ) < REQUEST_DELAY := by
  constructor
  · norm_num [getTiming, throttle, REQUEST_DELAY]
  · norm_num [REQUEST_DELAY]

/- ── Cache-key persistence: claim C9 ── -/

/-- The unknown-world resolution loop never removes an existing key. -/
lemma resolveWorlds_keys_mono (fetch : String → Option WorldRecord) :
    ∀ (ids : List String) (cache : List (String × WorldRecord)) (n : Nat) (k : String),
      k ∈ keysOf cache → k ∈ keysOf (resolveWorlds fetch ids cache n) := by
  intro ids
  induction ids with
  | nil => intro cache n k hk; exact hk
  | cons wid rest ih =>
    intro cache n k hk
    by_cases h : MAX_WORLD_LOOKUPS ≤ n
    · simpa [resolveWorlds, h] using hk
    · cases hf : fetch wid with
      | some w =>
        simpa [resolveWorlds, h, hf] using ih _ (n + 1) k (mem_keysOf_dictSet _ _ hk)
      | none =>
        simpa [resolveWorlds, h, hf] using ih _ (n + 1) k (mem_keysOf_dictSet _ _ hk)

/-- The unknown-instance resolution loop never removes an existing key. -/
lemma resolveInstances_keys_mono (fetch : String → String → Option InstanceResponse)
    (wc : List (String × WorldRecord)) :
    ∀ (unknown : List (String × String × String)) (cache : List (String × InstanceRecord))
      (k : String), k ∈ keysOf cache → k ∈ keysOf (resolveInstances fetch wc unknown cache) := by
  intro unknown
  induction unknown with
  | nil => intro cache k hk; exact hk
  | cons u rest ih =>
    intro cache k hk
    obtain ⟨key, wid, iid⟩ := u
    cases hf : fetch wid iid with
    | some inst =>
      simpa [resolveInstances, hf] using ih _ k (mem_keysOf_dictSet _ _ hk)
    | none =>
      simpa [resolveInstances, hf] using ih _ k hk

/-- `collect_instance_metrics` updates records in place, keeping the key
list identical. -/
lemma refreshInstances_keys (fetch : String → String → Option InstanceResponse) :
    ∀ cache : List (String × InstanceRecord),
      keysOf (refreshInstances fetch cache) = keysOf cache := by
  intro cache
  induction cache with
  | nil => rfl
  | cons p rest ih =>
    obtain ⟨key, r⟩ := p
    cases hf : fetch r.world_id r.instance_id <;> simp [refreshInstances, hf, ih]

/-- C9: every key present in the world or instance cache stays present
under every cache-touching collector operation — the resolution loops only
add keys, the refresh loops keep the key list exactly as it was, and no
operation deletes an entry. -/
theorem C9_cache_keys_persist
    (wfetch : String → Option WorldRecord) (ifetch : String → String → Option InstanceResponse)
    (ids : List String) (unknown : List (String × String × String))
    (wcache wc2 : List (String × WorldRecord)) (icache : List (String × InstanceRecord))
    (n : Nat) :
    (∀ k ∈ keysOf wcache, k ∈ keysOf (resolveWorlds wfetch ids wcache n)) ∧
    keysOf (refreshWorlds wfetch wcache n) = keysOf wcache ∧
    (∀ k ∈ keysOf icache, k ∈ keysOf (resolveInstances ifetch wc2 unknown icache)) ∧
    keysOf (refreshInstances ifetch icache) = keysOf icache :=
  ⟨fun k hk => resolveWorlds_keys_mono wfetch ids wcache n k hk,
   refreshWorlds_keys wfetch wcache n,
   fun k hk => resolveInstances_keys_mono ifetch wc2 unknown icache k hk,
   refreshInstances_keys ifetch icache⟩

/-- Witness for C9: concrete cached keys survive a resolution pass over
other ids. -/
theorem C9_cache_keys_persist_witness :
    "wrld_a" ∈ keysOf (resolveWorlds (fun _ => (none : Option WorldRecord)) ["wrld_b"]
      [("wrld_a", worldPlaceholder "wrld_a")] 0) ∧
    "wrld_a:1" ∈ keysOf (resolveInstances (fun _ _ => (none : Option InstanceResponse)) []
      [("wrld_c:2", "wrld_c", "2")]
      [("wrld_a:1", ⟨0, "us", "public", "wrld_a", "wrld_a", "1"⟩)]) :=
  ⟨(C9_cache_keys_persist (fun _ => none) (fun _ _ => none) ["wrld_b"]
      [("wrld_c:2", "wrld_c", "2")] [("wrld_a", worldPlaceholder "wrld_a")] []
      [("wrld_a:1", ⟨0, "us", "public", "wrld_a", "wrld_a", "1"⟩)] 0).1
      "wrld_a" (by decide),
   (C9_cache_keys_persist (fun _ => none) (fun _ _ => none) ["wrld_b"]
      [("wrld_c:2", "wrld_c", "2")] [("wrld_a", worldPlaceholder "wrld_a")] []
      [("wrld_a:1", ⟨0, "us", "public", "wrld_a", "wrld_a", "1"⟩)] 0).2.2.1
      "wrld_a:1" (by decide)⟩

/- ── Degraded placeholders: claim C2 ── -/

/-- C2 (amended): when a *world* fetch fails within the per-cycle cap, a
degraded placeholder record is appended under that key, the key is present
afterwards, and a cached key is never listed as unknown again; when an
*instance* fetch fails, nothing is stored — an all-failing instance pass
leaves the instance cache untouched, and a still-absent instance key
referenced by a friend is listed as unknown again on the next cycle. -/
theorem C2_degraded_placeholder (fetch : String → Option WorldRecord)
    (wid : String) (rest : List String) (cache : List (String × WorldRecord)) (n : Nat)
    (hn : n < MAX_WORLD_LOOKUPS) (hf : fetch wid = none) (habs : wid ∉ keysOf cache) :
    resolveWorlds fetch (wid :: rest) cache n
      = resolveWorlds fetch rest (cache ++ [(wid, worldPlaceholder wid)]) (n + 1) ∧
    wid ∈ keysOf (resolveWorlds fetch (wid :: rest) cache n) ∧
    (∀ (friends : List Friend) (cache2 : List (String × WorldRecord)),
      wid ∈ keysOf cache2 → wid ∉ unknownWorldIds friends cache2) ∧
    (∀ (ifetch : String → String → Option InstanceResponse)
        (wc : List (String × WorldRecord)) (unknown : List (String × String × String))
        (icache : List (String × InstanceRecord)),
      (∀ w i, ifetch w i = none) → resolveInstances ifetch wc unknown icache = icache) ∧
    (∀ (friends : List Friend) (icache : List (String × InstanceRecord)) (f : Friend),
      f ∈ friends →
      (f.location ≠ "" ∧ hasSub ":".toList f.location.toList = true ∧
        f.location ≠ "private" ∧ f.location ≠ "offline" ∧ f.location ≠ "traveling") →
      instKeyOf f.location ∉ keysOf icache →
      (instKeyOf f.location, worldIdOf f.location, instIdOf f.location) ∈
        unknownInstances friends icache) := by
  have hstep : resolveWorlds fetch (wid :: rest) cache n
      = resolveWorlds fetch rest (cache ++ [(wid, worldPlaceholder wid)]) (n + 1) := by
    rw [← dictSet_of_not_mem (worldPlaceholder wid) habs]
    simp [resolveWorlds, Nat.not_le.mpr hn, hf]
  refine ⟨hstep, ?_, ?_, ?_, ?_⟩
  · rw [hstep]
    apply resolveWorlds_keys_mono
    rw [keysOf_append]
    exact List.mem_append_right _ (by simp)
  · intro friends cache2 hmem hclaim
    have h1 := (List.mem_filter.mp (List.mem_dedup.mp hclaim)).2
    rw [decide_eq_true_eq] at h1
    exact h1 hmem
  · intro ifetch wc unknown icache hall
    induction unknown with
    | nil => rfl
    | cons u tail ih =>
      obtain ⟨key, w, i⟩ := u
      simp [resolveInstances, hall w i, ih]
  · intro friends icache f hfmem hcond hkabs
    apply List.mem_dedup.mpr
    apply List.mem_filter.mpr
    constructor
    · apply List.mem_filterMap.mpr
      exact ⟨f, hfmem, by rw [if_pos hcond]⟩
    · simpa using hkabs


/-- Witness for C2: a failed world fetch still creates the key; a failed
instance fetch creates nothing. -/
theorem C2_degraded_placeholder_witness :
    "wrld_x" ∈ keysOf (resolveWorlds (fun _ => (none : Option WorldRecord)) ["wrld_x"] [] 0) ∧
    resolveInstances (fun _ _ => (none : Option InstanceResponse)) []
      [("wrld_a:1", "wrld_a", "1")] [] = [] :=
  ⟨(C2_degraded_placeholder (fun _ => none) "wrld_x" [] [] 0 (by decide) rfl (by decide)).2.1,
   (C2_degraded_placeholder (fun _ => none) "wrld_x" [] [] 0 (by decide) rfl (by decide)).2.2.2.1
     (fun _ _ => none) [] [("wrld_a:1", "wrld_a", "1")] [] (fun _ _ => rfl)⟩


/-- Counterexample to C2 as stated: for the instance cache a failed fetch
inserts no placeholder — the key is absent after the pass and is computed
as unknown again next cycle, so it is re-attempted. -/
theorem C2_instance_no_placeholder_counterexample :
    resolveInstances (fun _ _ => (none : Option InstanceResponse)) []
      [("wrld_a:1", "wrld_a", "1")] [] = [] ∧
    "wrld_a:1" ∉ keysOf (resolveInstances (fun _ _ => (none : Option InstanceResponse)) []
      [("wrld_a:1", "wrld_a", "1")] []) ∧
    ("wrld_a:1", "wrld_a", "1") ∈ unknownInstances
      [{ status := "active", last_platform := "standalonewindows", displayName := "n",
         currentAvatarName := "av", location := "wrld_a:1" }] [] := by
  refine ⟨rfl, by decide, by decide⟩





/- ── Gauge persistence lemmas: claim C10 ── -/

/-- In-place value replacement of another key leaves a lookup unchanged. -/
lemma lookup_map_set {κ α : Type} [DecidableEq κ] {k k2 : κ} (v : α) (h : k2 ≠ k) :
    ∀ c : List (κ × α),
      (c.map (fun p => if p.1 = k then (k, v) else p)).lookup k2 = c.lookup k2 := by
  intro c
  induction c with
  | nil => rfl
  | cons p rest ih =>
    simp only [List.map_cons]
    by_cases hp : p.1 = k
    · rw [if_pos hp]
      have h1 : (k2 == k) = false := beq_eq_false_iff_ne.mpr h
      have h2 : (k2 == p.1) = false := beq_eq_false_iff_ne.mpr (fun he => h (he.trans hp))
      simp [List.lookup, h1, h2, ih]
    · rw [if_neg hp]
      by_cases hq : k2 = p.1
      · simp [List.lookup, hq]
      · have h2 : (k2 == p.1) = false := beq_eq_false_iff_ne.mpr hq
        simp [List.lookup, h2, ih]

/-- Appending a pair for another key leaves a lookup unchanged. -/
lemma lookup_append_single {κ α : Type} [DecidableEq κ] {k k2 : κ} (v : α) (h : k2 ≠ k) :
    ∀ c : List (κ × α), (c ++ [(k, v)]).lookup k2 = c.lookup k2 := by
  intro c
  induction c with
  | nil => simp [List.lookup, beq_eq_false_iff_ne.mpr h]
  | cons p rest ih =>
    by_cases hq : k2 = p.1
    · simp [List.lookup, hq]
    · simp [List.lookup, beq_eq_false_iff_ne.mpr hq, ih]

/-- Dict assignment to another key leaves a lookup unchanged. -/
lemma lookup_dictSet_ne {κ α : Type} [DecidableEq κ] {k k2 : κ} (v : α)
    (c : List (κ × α)) (h : k2 ≠ k) :
    (dictSet k v c).lookup k2 = c.lookup k2 := by
  unfold dictSet
  split
  · exact lookup_map_set v h c
  · exact lookup_append_single v h c

/-- Publishing a batch of counts never removes a gauge label. -/
lemma mem_keysOf_setGauges (counts : List (String × Nat)) :
    ∀ (g : List (String × Nat)) (k : String), k ∈ keysOf g → k ∈ keysOf (setGauges counts g) := by
  induction counts with
  | nil => intro g k hk; exact hk
  | cons kv rest ih =>
    intro g k hk
    simp only [setGauges, List.foldl_cons]
    exact ih (dictSet kv.1 kv.2 g) k (mem_keysOf_dictSet _ _ hk)

/-- A label absent from the published counts keeps its old gauge value. -/
lemma lookup_setGauges_not_mem (counts : List (String × Nat)) :
    ∀ (g : List (String × Nat)) (k : String), k ∉ keysOf counts →
      (setGauges counts g).lookup k = g.lookup k := by
  induction counts with
  | nil => intro g k _; rfl
  | cons kv rest ih =>
    intro g k hk
    simp only [keysOf_cons, List.mem_cons, not_or] at hk
    simp only [setGauges, List.foldl_cons]
    show (setGauges rest (dictSet kv.1 kv.2 g)).lookup k = g.lookup k
    rw [ih (dictSet kv.1 kv.2 g) k hk.2]
    exact lookup_dictSet_ne _ _ hk.1

/-- Keys after a count bump: the bumped key is appended when new. -/
lemma keysOf_bumpCount (k : String) :
    ∀ c : List (String × Nat),
      keysOf (bumpCount k c) = if k ∈ keysOf c then keysOf c else keysOf c ++ [k] := by
  intro c
  induction c with
  | nil => simp [bumpCount]
  | cons p rest ih =>
    obtain ⟨k3, cnt⟩ := p
    by_cases hp : k3 = k
    · subst hp
      simp [bumpCount]
    · simp only [bumpCount, if_neg hp, keysOf_cons, ih]
      by_cases hm : k ∈ keysOf rest
      · simp [hm, hp, Ne.symm hp]
      · simp [hm, hp, Ne.symm hp]

/-- Every key of an accumulated count dict comes from the accumulator or
from some list element's attribute. -/
lemma keysOf_foldl_bump (attr : Friend → String) :
    ∀ (l : List Friend) (acc : List (String × Nat)) (k2 : String),
      k2 ∈ keysOf (l.foldl (fun a f => bumpCount (attr f) a) acc) →
        k2 ∈ keysOf acc ∨ ∃ f ∈ l, attr f = k2 := by
  intro l
  induction l with
  | nil => intro acc k2 h; exact Or.inl h
  | cons f rest ih =>
    intro acc k2 h
    simp only [List.foldl_cons] at h
    rcases ih (bumpCount (attr f) acc) k2 h with h2 | h2
    · rw [keysOf_bumpCount] at h2
      by_cases hm : attr f ∈ keysOf acc
      · rw [if_pos hm] at h2
        exact Or.inl h2
      · rw [if_neg hm] at h2
        rcases List.mem_append.mp h2 with h3 | h3
        · exact Or.inl h3
        · exact Or.inr ⟨f, List.mem_cons_self _ _, (List.mem_singleton.mp h3).symm⟩
    · obtain ⟨f2, hf2, he⟩ := h2
      exact Or.inr ⟨f2, List.mem_cons_of_mem _ hf2, he⟩

/-- Every key of `countBy attr friends` is some friend's attribute. -/
lemma keysOf_countBy (attr : Friend → String) (friends : List Friend) (k : String)
    (h : k ∈ keysOf (countBy attr friends)) : ∃ f ∈ friends, attr f = k := by
  rcases keysOf_foldl_bump attr friends [] k h with h2 | h2
  · simp at h2
  · exact h2

/-- Every key of a dict built by repeated assignment comes from the
accumulator or from some list element's label. -/
lemma keysOf_foldl_dictSet {κ : Type} [DecidableEq κ] (lab : Friend → κ) :
    ∀ (l : List Friend) (acc : List (κ × Nat)) (k2 : κ),
      k2 ∈ keysOf (l.foldl (fun a f => dictSet (lab f) 1 a) acc) →
        k2 ∈ keysOf acc ∨ ∃ f ∈ l, lab f = k2 := by
  intro l
  induction l with
  | nil => intro acc k2 h; exact Or.inl h
  | cons f rest ih =>
    intro acc k2 h
    simp only [List.foldl_cons] at h
    rcases ih (dictSet (lab f) 1 acc) k2 h with h2 | h2
    · rw [keysOf_dictSet] at h2
      by_cases hm : lab f ∈ keysOf acc
      · rw [if_pos hm] at h2
        exact Or.inl h2
      · rw [if_neg hm] at h2
        rcases List.mem_append.mp h2 with h3 | h3
        · exact Or.inl h3
        · exact Or.inr ⟨f, List.mem_cons_self _ _, (List.mem_singleton.mp h3).symm⟩
    · obtain ⟨f2, hf2, he⟩ := h2
      exact Or.inr ⟨f2, List.mem_cons_of_mem _ hf2, he⟩

/-- C10: the per-status and per-platform friend-count gauges are never
cleared by `collect_friends_online` — every label present beforehand is
still present afterwards, and a label no current friend carries keeps its
old (stale) count rather than being removed or zeroed — whereas the
per-friend detail gauge is cleared and rebuilt, so it only ever carries
labels of the current friend list. -/
theorem C10_status_platform_gauges_persist
    (worldCache : List (String × WorldRecord)) (friends : List Friend) (g : FriendGauges) :
    (∀ label ∈ keysOf g.byStatus,
      label ∈ keysOf (collectFriendsGauges worldCache friends g).byStatus) ∧
    (∀ label ∈ keysOf g.byStatus, (∀ f ∈ friends, f.status ≠ label) →
      ((collectFriendsGauges worldCache friends g).byStatus).lookup label
        = (g.byStatus).lookup label) ∧
    (∀ label ∈ keysOf g.byPlatform,
      label ∈ keysOf (collectFriendsGauges worldCache friends g).byPlatform) ∧
    (∀ label ∈ keysOf g.byPlatform, (∀ f ∈ friends, f.last_platform ≠ label) →
      ((collectFriendsGauges worldCache friends g).byPlatform).lookup label
        = (g.byPlatform).lookup label) ∧
    (∀ d ∈ keysOf (collectFriendsGauges worldCache friends g).detail,
      ∃ f ∈ friends, detailLabelsOf worldCache f = d) := by
  refine ⟨?_, ?_, ?_, ?_, ?_⟩
  · intro label hl
    exact mem_keysOf_setGauges _ _ label hl
  · intro label _ hnone
    apply lookup_setGauges_not_mem
    intro hmem
    obtain ⟨f, hf, he⟩ := keysOf_countBy Friend.status friends label hmem
    exact hnone f hf he
  · intro label hl
    exact mem_keysOf_setGauges _ _ label hl
  · intro label _ hnone
    apply lookup_setGauges_not_mem
    intro hmem
    obtain ⟨f, hf, he⟩ := keysOf_countBy Friend.last_platform friends label hmem
    exact hnone f hf he
  · intro d hd
    rcases keysOf_foldl_dictSet (detailLabelsOf worldCache) friends [] d hd with h2 | h2
    · simp at h2
    · exact h2

/-- Witness for C10: a stale `busy` entry survives a collection pass in
which no friend has status `busy`, keeping its old count. -/
theorem C10_status_platform_gauges_persist_witness :
    ((collectFriendsGauges [] [⟨"active", "standalonewindows", "n", "av", ""⟩]
        ⟨[], [("busy", 3)], [("oculus", 2)], []⟩).byStatus).lookup "busy"
      = ([("busy", 3)] : List (String × Nat)).lookup "busy" :=
  (C10_status_platform_gauges_persist [] [⟨"active", "standalonewindows", "n", "av", ""⟩]
      ⟨[], [("busy", 3)], [("oculus", 2)], []⟩).2.1 "busy" (by decide) (by decide)


end VRChatExporter
